import Mathlib

/-!
Shallow embedding of the `waterscrape` repository: a parsed-markup (HTML)
document model in the style of the trees the scraper walks, the field
extractor `_extract_value` and history extractor `_extract_bill_history`
of `scraper.py`, the form handling of `get_bill_info`, the per-account
batch loop of `main.py`, and the helpers of `utils.py`.

Modelling conventions:
* Python strings are Lean `String`s; Python `len`, slicing and `strip()`
  work on code points, modelled through `String.data` (a `List Char`).
* ASCII case folding and ASCII whitespace stand in for Python's Unicode
  behaviour; every string the claims touch is ASCII.
* HTTP responses are injected as already-parsed documents; transport
  failures are outside the embedded fragment.
-/

namespace WaterScrape

/-- Parsed-markup node: an element with a tag name, an attribute list and
children, or a text node. Mirrors the `BeautifulSoup` tree the scraper
traverses. -/
inductive Node where
  | elem (tag : String) (attrs : List (String × String)) (children : List Node)
  | text (s : String)

/-- Attribute lookup on an element (`tag.get(key)` in the source); `none`
on a text node or a missing attribute. -/
def Node.attr : Node → String → Option String
  | .elem _ attrs _, k => (attrs.find? (fun kv => kv.1 == k)).map (fun kv => kv.2)
  | .text _, _ => none

/-- Does this node carry the given element tag? -/
def Node.hasTag : Node → String → Bool
  | .elem t _ _, tg => t == tg
  | .text _, _ => false

mutual
/-- Concatenated text of a node (`tag.text` in BeautifulSoup): text nodes
verbatim, elements as the concatenation of their descendants' text. -/
def nodeText : Node → String
  | .text s => s
  | .elem _ _ cs => listText cs

/-- Concatenated text of a forest of nodes. -/
def listText : List Node → String
  | [] => ""
  | n :: ns => nodeText n ++ listText ns
end

mutual
/-- Document-order (pre-order) traversal of a node: the node itself, then
its descendants. -/
def preorderNode : Node → List Node
  | .text s => [Node.text s]
  | .elem t a cs => Node.elem t a cs :: preorderList cs

/-- Document-order traversal of a forest. -/
def preorderList : List Node → List Node
  | [] => []
  | n :: ns => preorderNode n ++ preorderList ns
end

/-- Proper descendants of a node in document order. -/
def descendants : Node → List Node
  | .text _ => []
  | .elem _ _ cs => preorderList cs

/-- `soup.find_all(pred)`: every node of the document (a forest of
top-level nodes) satisfying the predicate, in document order. -/
def findAllList (p : Node → Bool) (l : List Node) : List Node :=
  (preorderList l).filter p

/-- `tag.find_all(pred)`: every proper descendant of a node satisfying the
predicate, in document order. -/
def findAllNode (p : Node → Bool) (n : Node) : List Node :=
  (descendants n).filter p

/-- ASCII whitespace as recognised by Python's `str.strip()`. -/
def isPyWs (c : Char) : Bool :=
  c == ' ' || c == '\t' || c == '\n' || c == '\r' || c == '\x0b' || c == '\x0c'

/-- Python `str.strip()` on a character list. -/
def pyStripList (cs : List Char) : List Char :=
  ((cs.dropWhile isPyWs).reverse.dropWhile isPyWs).reverse

/-- Python `str.strip()`. -/
def pyStrip (s : String) : String :=
  ⟨pyStripList s.data⟩

/-- Lower-cased character list of a string (ASCII case folding). -/
def lowerChars (s : String) : List Char :=
  s.data.map Char.toLower

/-- Is `pat` a contiguous sublist of `s`? -/
def containsSub (pat s : List Char) : Bool :=
  s.tails.any (fun t => pat.isPrefixOf t)

/-- Case-insensitive substring search, modelling
`re.search(pat, s, re.IGNORECASE)` for the literal patterns the scraper
uses (the field labels contain no regex metacharacters). -/
def reSearchCI (pat s : String) : Bool :=
  containsSub (lowerChars pat) (lowerChars s)

/-- Split a character list into maximal whitespace-free tokens; `acc` holds
the reversed characters of the token being read. -/
def tokenizeWs : List Char → List Char → List String
  | [], acc => if acc.isEmpty then [] else [⟨acc.reverse⟩]
  | c :: cs, acc =>
    if isPyWs c then
      if acc.isEmpty then tokenizeWs cs [] else ⟨acc.reverse⟩ :: tokenizeWs cs []
    else tokenizeWs cs (c :: acc)

/-- Whitespace-separated class tokens of an element's `class` attribute,
the multi-valued view BeautifulSoup matches `class_` filters against. -/
def classTokens (n : Node) : List String :=
  match n.attr "class" with
  | none => []
  | some s => tokenizeWs s.data []

/-- Row predicate of `_extract_value`:
`soup.find_all('div', class_=['row', 'rowcontenteditable='])`. -/
def isRowDiv (n : Node) : Bool :=
  n.hasTag "div" && (classTokens n).any (fun c => c == "row" || c == "rowcontenteditable=")

/-- Loop body of `_extract_value` over the candidate rows: for each row take
its first `p` descendant, that paragraph's first `b` descendant, and if the
bold text matches the field name case-insensitively return the paragraph's
stripped text with the bold text's length cut off the front, stripped. -/
def scanRows (fieldName : String) : List Node → Option String
  | [] => none
  | row :: rest =>
    match (findAllNode (fun n => n.hasTag "p") row).head? with
    | none => scanRows fieldName rest
    | some pTag =>
      match (findAllNode (fun n => n.hasTag "b") pTag).head? with
      | none => scanRows fieldName rest
      | some bTag =>
        if reSearchCI fieldName (nodeText bTag) then
          some (pyStrip ⟨((pyStrip (nodeText pTag)).data.drop (nodeText bTag).length)⟩)
        else
          scanRows fieldName rest

/-- Structural-row scan of `_extract_value`: first matching row wins. -/
def rowScanValue (doc : List Node) (fieldName : String) : Option String :=
  scanRows fieldName (findAllList isRowDiv doc)

/-- `_extract_value`: the structural-row scan, defaulting to the sentinel
`"N/A"` when no row matches (the function's only other exit is the blanket
`except` which also returns `"N/A"`; the embedded fragment is total). -/
def extractValue (doc : List Node) (fieldName : String) : String :=
  (rowScanValue doc fieldName).getD "N/A"

/-- Insert-or-replace on an association list, the update behaviour of a
Python `dict`: an existing key keeps its position and gets the new value, a
new key goes to the end. -/
def dinsert {K : Type} [DecidableEq K] : List (K × String) → K → String → List (K × String)
  | [], k, v => [(k, v)]
  | kv :: rest, k, v => if kv.1 = k then (k, v) :: rest else kv :: dinsert rest k v

/-- First-match lookup on an association list (`dict` indexing / `get`). -/
def dlookup {K : Type} [DecidableEq K] : List (K × String) → K → Option String
  | [], _ => none
  | kv :: rest, k => if kv.1 = k then some kv.2 else dlookup rest k

/-- `form.find_all('input', type='hidden')` predicate. -/
def isHiddenInput (n : Node) : Bool :=
  n.hasTag "input" && (n.attr "type" == some "hidden")

/-- Name/value pairs of the form's hidden inputs, in document order; a
missing `name` attribute yields the key `none` (Python's `None` dict key),
a missing `value` defaults to the empty string (`hidden.get('value', '')`). -/
def hiddenPairs (form : Node) : List (Option String × String) :=
  (findAllNode isHiddenInput form).map (fun n => (n.attr "name", (n.attr "value").getD ""))

/-- The `hidden_fields` dict of `get_bill_info`, built by successive dict
assignment over the hidden inputs. -/
def hiddenDict (form : Node) : List (Option String × String) :=
  (hiddenPairs form).foldl (fun d kv => dinsert d kv.1 kv.2) []

/-- `form.find('input', {'id': 'accountNumber'})` predicate. -/
def isAccountInput (n : Node) : Bool :=
  n.hasTag "input" && (n.attr "id" == some "accountNumber")

/-- The primary query input element of the form, if any. -/
def accountInput (form : Node) : Option Node :=
  (findAllNode isAccountInput form).head?

/-- `account_input.get('name', 'accountNumber')`: the discovered field name
of the primary query input (computed on line 73 of `scraper.py` and never
referenced afterwards). -/
def accountFieldName (inp : Node) : String :=
  (inp.attr "name").getD "accountNumber"

/-- The `search_data` POST body of `get_bill_info`: the hidden-field dict
updated with the literal key `'AccountNumber'` bound to the query value and
the fixed `searchType`/`action`/`submit` markers, exactly as the dict
literal on lines 76-82 of `scraper.py` builds it. -/
def searchData (form : Node) (accountNumber : String) : List (Option String × String) :=
  dinsert (dinsert (dinsert (dinsert (hiddenDict form)
    (some "AccountNumber") accountNumber)
    (some "searchType") "account")
    (some "action") "/water/_getInfoByAccountNumber")
    (some "submit") "buttonSubmitAccountNumber"

/-- Follows the spec's words, for comparison with `searchData`: the POST
body binds the primary query input's discovered field name (falling back to
the hard-coded default when discovery fails) to the query value, together
with the hidden fields and the fixed markers. -/
def searchDataSpec (form : Node) (accountNumber : String) : List (Option String × String) :=
  let fname : String :=
    match accountInput form with
    | some inp => accountFieldName inp
    | none => "accountNumber"
  dinsert (dinsert (dinsert (dinsert (hiddenDict form)
    (some fname) accountNumber)
    (some "searchType") "account")
    (some "action") "/water/_getInfoByAccountNumber")
    (some "submit") "buttonSubmitAccountNumber"

/-- `soup.find('table', {'id': 'billing-history'})` predicate. -/
def isHistTable (n : Node) : Bool :=
  n.hasTag "table" && (n.attr "id" == some "billing-history")

/-- Header cells of the history table: stripped text of every `th`
descendant, in document order. -/
def headersOf (table : Node) : List String :=
  (findAllNode (fun n => n.hasTag "th") table).map (fun th => pyStrip (nodeText th))

/-- Data rows of the history table: every `tr` descendant except the first
(`table.find_all('tr')[1:]`). -/
def dataRowsOf (table : Node) : List Node :=
  (findAllNode (fun n => n.hasTag "tr") table).drop 1

/-- Stripped cell texts of one row: its `td` descendants in order. -/
def cellTextsOf (r : Node) : List String :=
  (findAllNode (fun n => n.hasTag "td") r).map (fun c => pyStrip (nodeText c))

/-- One history entry: the dict built by assigning `entry[header] = cell`
over `zip(headers, cells)`. -/
def mkHistEntry (headers : List String) (r : Node) : List (String × String) :=
  (headers.zip (cellTextsOf r)).foldl (fun e hc => dinsert e hc.1 hc.2) []

/-- `_extract_bill_history`: locate the `billing-history` table, take its
`th` texts as headers, and convert each post-header `tr` whose `td` count
equals the header count into an entry; mismatched rows are skipped. -/
def extractBillHistory (doc : List Node) : List (List (String × String)) :=
  match (findAllList isHistTable doc).head? with
  | none => []
  | some table =>
    (dataRowsOf table).filterMap (fun r =>
      if (cellTextsOf r).length = (headersOf table).length then
        some (mkHistEntry (headersOf table) r)
      else none)

/-- The five field labels `get_bill_info` extracts for the current record,
in the order the source's dict literal lists them. -/
def fieldLabels : List String :=
  ["Service Address", "Current Balance", "Previous Balance", "Last Pay Date", "Last Pay Amount"]

/-- The `current_bill_info` mapping of `get_bill_info`. -/
def currentBillInfo (doc : List Node) : List (String × String) :=
  fieldLabels.map (fun l => (l, extractValue doc l))

/-- The current-plus-history record `get_bill_info` returns. -/
structure BillResult where
  current : List (String × String)
  history : List (List (String × String))

/-- `all(v == 'N/A' for v in current_bill_info.values())`. -/
def allNA (cur : List (String × String)) : Bool :=
  cur.all (fun kv => kv.2 == "N/A")

/-- Post-submission phase of `get_bill_info`: extract the five current
fields and the history from the results page; when every field is `"N/A"`
and the history is empty the inner `Exception("No bill information found")`
is re-wrapped by the blanket handler into
`"Scraping error: No bill information found"`. -/
def processResults (doc : List Node) : Except String BillResult :=
  if allNA (currentBillInfo doc) && (extractBillHistory doc).isEmpty then
    .error "Scraping error: No bill information found"
  else
    .ok ⟨currentBillInfo doc, extractBillHistory doc⟩

/-- `soup.find('form', {'id': 'accountNumberForm'})` predicate. -/
def isAccountForm (n : Node) : Bool :=
  n.hasTag "form" && (n.attr "id" == some "accountNumberForm")

/-- `get_bill_info` with the two HTTP responses injected as already-parsed
documents: fail when the search form or the account input is missing (with
the re-wrapped messages of the blanket handler), otherwise process the
submitted page. Transport errors live outside the embedded fragment. -/
def getBillInfo (formPage resultsPage : List Node) (accountNumber : String) :
    Except String BillResult :=
  match (findAllList isAccountForm formPage).head? with
  | none => .error "Scraping error: Could not find search form"
  | some form =>
    match accountInput form with
    | none => .error "Scraping error: Could not find account number input field"
    | some _ =>
      let _ := searchData form accountNumber
      processResults resultsPage

/-- The success row `main.py` appends to `current_results` for one account:
the five fields read out of the record with default `"N/A"`, plus the
account number and the `"Success"` status. -/
def successRow (account : String) (info : BillResult) : List (String × String) :=
  [("Account Number", account),
   ("Address", (dlookup info.current "Service Address").getD "N/A"),
   ("Current Balance", (dlookup info.current "Current Balance").getD "N/A"),
   ("Previous Balance", (dlookup info.current "Previous Balance").getD "N/A"),
   ("Last Pay Date", (dlookup info.current "Last Pay Date").getD "N/A"),
   ("Last Pay Amount", (dlookup info.current "Last Pay Amount").getD "N/A"),
   ("Status", "Success")]

/-- The error row `main.py` appends when `get_bill_info` raises: the four
monetary/date fields carry the `"Error"` sentinel, the status carries the
exception's message, and no `"Address"` key is present. -/
def errorRow (account msg : String) : List (String × String) :=
  [("Account Number", account),
   ("Current Balance", "Error"),
   ("Previous Balance", "Error"),
   ("Last Pay Date", "Error"),
   ("Last Pay Amount", "Error"),
   ("Status", msg)]

/-- The row the batch loop appends for one account, given the fetch
outcome. -/
def rowFor (fetch : String → Except String BillResult) (account : String) :
    List (String × String) :=
  match fetch account with
  | .ok info => successRow account info
  | .error e => errorRow account e

/-- The `current_results` accumulation of the batch loop in `main.py`: one
row per account, in input order; the try/except around each fetch keeps any
failure local to its row. -/
def processAccounts (fetch : String → Except String BillResult)
    (accounts : List String) : List (List (String × String)) :=
  accounts.map (rowFor fetch)

/-- Character class `[A-Za-z0-9\s\.,]` of the address pattern (ASCII). -/
def isAddrCharB (c : Char) : Bool :=
  c.isAlpha || c.isDigit || isPyWs c || c == '.' || c == ','

/-- The address test of `validate_addresses`:
`re.match(r'^\d+\s+[A-Za-z0-9\s\.,]+$', address) and len(address) >= 5`.
Since the character class contains `\s`, the pattern matches exactly when
the string is one or more digits, then a whitespace character, then one or
more characters of the class. -/
def isValidAddress (address : String) : Bool :=
  let cs := address.data
  let rest := cs.dropWhile Char.isDigit
  (!(cs.takeWhile Char.isDigit).isEmpty) &&
  (match rest with
   | [] => false
   | c :: cs2 => isPyWs c && !cs2.isEmpty && cs2.all isAddrCharB) &&
  decide (5 ≤ cs.length)

/-- Accumulating loop of `validate_addresses`, appending each address to
the valid or invalid list. -/
def validateGo : List String → List String → List String → List String × List String
  | [], v, i => (v, i)
  | a :: rest, v, i =>
    if isValidAddress a then validateGo rest (v ++ [a]) i
    else validateGo rest v (i ++ [a])

/-- `validate_addresses` from `utils.py`. -/
def validate_addresses (addresses : List String) : List String × List String :=
  validateGo addresses [] []

/-- Numeric value of an ASCII digit character. -/
def dval (c : Char) : Nat := c.toNat - 48

/-- Continuation of the digit lexer: consumes further digits, allowing a
single underscore between two digits as Python's `float()` does; returns
the accumulated value, the digit count and the unconsumed rest. -/
def lexDigitsCont : List Char → Nat → Nat → Nat × Nat × List Char
  | [], acc, n => (acc, n, [])
  | c :: cs, acc, n =>
    if c.isDigit then lexDigitsCont cs (acc * 10 + dval c) (n + 1)
    else if c == '_' then
      match cs with
      | c2 :: cs2 =>
        if c2.isDigit then lexDigitsCont cs2 (acc * 10 + dval c2) (n + 1)
        else (acc, n, c :: cs)
      | [] => (acc, n, [c])
    else (acc, n, c :: cs)

/-- Digit-run lexer: value, number of digits consumed, unconsumed rest;
consumes nothing when the first character is not a digit. -/
def lexDigits (cs : List Char) : Nat × Nat × List Char :=
  match cs with
  | c :: rest => if c.isDigit then lexDigitsCont rest (dval c) 1 else (0, 0, cs)
  | [] => (0, 0, [])

/-- Result of Python `float()` on an accepted string, modelled as an exact
decimal `m * 10 ^ e` (the claims only touch values the IEEE double
represents exactly; overflow to infinity and the sign of `-0.0` are not
modelled), or an infinity or NaN literal. -/
inductive PyFloat where
  | finite (m : Int) (e : Int)
  | infinite (neg : Bool)
  | nan

/-- Unsigned decimal-number grammar of `float()`:
`digits [. digits] [exp] | . digits [exp]` with single underscores between
digits; returns mantissa and decimal exponent. -/
def parseDecimal (cs : List Char) : Option (Nat × Int) :=
  let t1 := lexDigits cs
  let ip := t1.1
  let n1 := t1.2.1
  let r1 := t1.2.2
  let t2 :=
    match r1 with
    | '.' :: r => lexDigits r
    | _ => (0, 0, r1)
  let fp := t2.1
  let n2 := t2.2.1
  let r2 := t2.2.2
  if n1 == 0 && n2 == 0 then none
  else
    let mant : Nat := ip * 10 ^ n2 + fp
    match r2 with
    | [] => some (mant, -(n2 : Int))
    | e :: r3 =>
      if e == 'e' || e == 'E' then
        let (eneg, r4) :=
          match r3 with
          | '+' :: r => (false, r)
          | '-' :: r => (true, r)
          | r => (false, r)
        let t3 := lexDigits r4
        if t3.2.1 == 0 || !t3.2.2.isEmpty then none
        else some (mant, (if eneg then -(t3.1 : Int) else (t3.1 : Int)) - (n2 : Int))
      else none

/-- Python `float()` on a string: strip whitespace, take an optional sign,
then an `inf`/`infinity`/`nan` literal (case-insensitive) or a decimal
number; `none` models `ValueError`. -/
def parsePyFloat (s : String) : Option PyFloat :=
  let stripped := pyStripList s.data
  let (neg, cs) :=
    match stripped with
    | '+' :: r => (false, r)
    | '-' :: r => (true, r)
    | r => (false, r)
  let low := cs.map Char.toLower
  if low == "inf".data || low == "infinity".data then some (.infinite neg)
  else if low == "nan".data then some .nan
  else
    match parseDecimal cs with
    | some me => some (.finite (if neg then -(me.1 : Int) else (me.1 : Int)) me.2)
    | none => none

/-- Round `a / d` to the nearest integer, ties to even (`d > 0`). -/
def roundHalfEvenNat (a d : Nat) : Nat :=
  let q := a / d
  let r := a % d
  if 2 * r < d then q
  else if d < 2 * r then q + 1
  else if q % 2 == 0 then q else q + 1

/-- Decimal digit characters of a positive number, most significant first;
the first argument is fuel bounding the number of digits. -/
def natDigitsAux : Nat → Nat → List Char → List Char
  | 0, _, acc => acc
  | _, 0, acc => acc
  | fuel + 1, n + 1, acc =>
    natDigitsAux fuel ((n + 1) / 10) (Nat.digitChar ((n + 1) % 10) :: acc)

/-- Decimal digit characters of a number, most significant first. -/
def natDigits (n : Nat) : List Char :=
  match n with
  | 0 => ['0']
  | m + 1 => natDigitsAux (m + 1) (m + 1) []

/-- Insert a comma after every third character of a reversed digit list. -/
def group3Rev : List Char → List Char
  | d1 :: d2 :: d3 :: d4 :: rest => d1 :: d2 :: d3 :: ',' :: group3Rev (d4 :: rest)
  | l => l

/-- Decimal rendering of a number with thousands separators. -/
def groupThousands (n : Nat) : List Char :=
  (group3Rev (natDigits n).reverse).reverse

/-- The format `f"{amount:,.2f}"`: two decimals, round half to even,
thousands separators in the integer part. -/
def formatFixed2 : PyFloat → String
  | .infinite false => "inf"
  | .infinite true => "-inf"
  | .nan => "nan"
  | .finite m e =>
    let a := m.natAbs
    let cents :=
      if 0 ≤ e + 2 then a * 10 ^ (e + 2).toNat
      else roundHalfEvenNat a (10 ^ (-(e + 2)).toNat)
    let sign := if m < 0 then "-" else ""
    sign ++ ⟨groupThousands (cents / 100)⟩ ++ "." ++
      ⟨[Nat.digitChar (cents % 100 / 10), Nat.digitChar (cents % 100 % 10)]⟩

/-- `value.replace('$', '').replace(',', '').strip()`. -/
def cleanCurrency (value : String) : List Char :=
  pyStripList (value.data.filter (fun c => !(c == '$' || c == ',')))

/-- `format_currency` from `utils.py`: `"N/A"` passes through, a value that
parses after cleaning is re-rendered as `$` plus the two-decimal grouped
format, and a `ValueError` from `float()` returns the input unchanged. -/
def format_currency (value : String) : String :=
  if value == "N/A" then value
  else
    match parsePyFloat ⟨cleanCurrency value⟩ with
    | none => value
    | some f => "$" ++ formatFixed2 f

/-! Concrete documents used by the claim theorems, witnesses and
counterexamples. -/

/-- A row div holding a bold label and trailing value text, the structure
`_extract_value` expects. -/
def labeledRow (label value : String) : Node :=
  .elem "div" [("class", "row")]
    [.elem "p" [] [.elem "b" [] [.text label], .text value]]

/-- Results page with one populated field. -/
def balanceDoc : List Node := [labeledRow "Current Balance" " $ 14.00"]

/-- A document whose label row has no trailing value content after the bold
label text. -/
def noTrailingDoc : List Node :=
  [.elem "div" [("class", "row")] [.elem "p" [] [.elem "b" [] [.text "Current Balance"]]]]

/-- A document with no structural rows at all, where the label occurs only
as a free text node whose parent has a value-bearing adjacent sibling. -/
def freeTextDoc : List Node :=
  [.elem "span" [] [.text "Current Balance"], .elem "span" [] [.text "$5.00"]]

/-- Is this node a text node? Used only to state the spec's free-text-scan
claim. -/
def isTextNode : Node → Bool
  | .text _ => true
  | .elem _ _ _ => false

/-- Follows the spec's words for the free-text scan: all text nodes of the
document matching the label as a case-insensitive substring. -/
def matchingTextNodes (doc : List Node) (label : String) : List Node :=
  (preorderList doc).filter (fun n => isTextNode n && reSearchCI label (nodeText n))

/-- Billing-history table with header row Date/Amount and one complete data
row. -/
def histTable1 : Node :=
  .elem "table" [("id", "billing-history")]
    [.elem "tr" [] [.elem "th" [] [.text "Date"], .elem "th" [] [.text "Amount"]],
     .elem "tr" [] [.elem "td" [] [.text "2024-01-01"], .elem "td" [] [.text "$10.00"]]]

/-- Document holding `histTable1`. -/
def histDoc1 : List Node := [histTable1]

/-- Billing-history table like `histTable1` with an extra data row whose
cell count (1) differs from the header count (2). -/
def histTable2 : Node :=
  .elem "table" [("id", "billing-history")]
    [.elem "tr" [] [.elem "th" [] [.text "Date"], .elem "th" [] [.text "Amount"]],
     .elem "tr" [] [.elem "td" [] [.text "2024-01-01"], .elem "td" [] [.text "$10.00"]],
     .elem "tr" [] [.elem "td" [] [.text "2024-02-01"]]]

/-- Document holding `histTable2`. -/
def histDoc2 : List Node := [histTable2]

/-- Form page element: the `accountNumberForm` with one hidden input and a
primary query input whose discovered field name is `"foo"`. -/
def exForm : Node :=
  .elem "form" [("id", "accountNumberForm")]
    [.elem "input" [("type", "hidden"), ("name", "csrf"), ("value", "tok")] [],
     .elem "input" [("id", "accountNumber"), ("name", "foo")] []]

/-- Form page holding `exForm`. -/
def okFormPage : List Node := [exForm]

/-- Form page element: the `accountNumberForm` with a hidden input but no
primary query input at all. -/
def noInputForm : Node :=
  .elem "form" [("id", "accountNumberForm")]
    [.elem "input" [("type", "hidden"), ("name", "csrf"), ("value", "tok")] []]

/-- Form page holding `noInputForm`. -/
def noInputFormPage : List Node := [noInputForm]

/-- A fetch oracle that always fails with a fixed transport message. -/
def fetchFailEx : String → Except String BillResult :=
  fun _ => .error "Network error: boom"

/-- A fetch oracle that always succeeds with a one-field record. -/
def fetchOkEx : String → Except String BillResult :=
  fun _ => .ok ⟨[("Service Address", "1 Main St")], []⟩

/-! Helper lemmas. -/

mutual
/-- Pre-order membership is transitive through a node. -/
theorem mem_preorder_trans_node : ∀ (n x y : Node),
    x ∈ preorderNode n → y ∈ preorderNode x → y ∈ preorderNode n
  | .text s, x, y, hx, hy => by
    simp only [preorderNode, List.mem_singleton] at hx
    subst hx
    exact hy
  | .elem t a cs, x, y, hx, hy => by
    rw [preorderNode] at hx ⊢
    rcases List.mem_cons.1 hx with h | h
    · subst h
      exact hy
    · exact List.mem_cons_of_mem _ (mem_preorder_trans_list cs x y h hy)

/-- Pre-order membership is transitive through a forest. -/
theorem mem_preorder_trans_list : ∀ (l : List Node) (x y : Node),
    x ∈ preorderList l → y ∈ preorderNode x → y ∈ preorderList l
  | [], x, _, hx, _ => by simp [preorderList] at hx
  | n :: ns, x, y, hx, hy => by
    rw [preorderList] at hx ⊢
    rcases List.mem_append.1 hx with h | h
    · exact List.mem_append.2 (Or.inl (mem_preorder_trans_node n x y h hy))
    · exact List.mem_append.2 (Or.inr (mem_preorder_trans_list ns x y h hy))
end

/-- A proper descendant is in the pre-order traversal. -/
theorem mem_preorderNode_of_mem_descendants {x n : Node} (h : x ∈ descendants n) :
    x ∈ preorderNode n := by
  cases n with
  | text s => simp [descendants] at h
  | elem t a cs =>
    rw [preorderNode]
    exact List.mem_cons_of_mem _ h

/-- If no bold element reachable from any candidate row matches the label,
the row scan yields nothing. -/
theorem scanRows_eq_none (f : String) (rows : List Node)
    (h : ∀ row ∈ rows, ∀ b ∈ preorderNode row,
      b.hasTag "b" = true → reSearchCI f (nodeText b) = false) :
    scanRows f rows = none := by
  induction rows with
  | nil => rfl
  | cons row rest ih =>
    have hrest := fun r hr => h r (List.mem_cons_of_mem _ hr)
    cases hp : (findAllNode (fun n => n.hasTag "p") row).head? with
    | none =>
      simp only [scanRows, hp]
      exact ih hrest
    | some pTag =>
      cases hb : (findAllNode (fun n => n.hasTag "b") pTag).head? with
      | none =>
        simp only [scanRows, hp, hb]
        exact ih hrest
      | some bTag =>
        have hpmem := List.mem_filter.mp
          (List.mem_of_mem_head? (Option.mem_def.mpr hp))
        have hbmem := List.mem_filter.mp
          (List.mem_of_mem_head? (Option.mem_def.mpr hb))
        have hbrow : bTag ∈ preorderNode row :=
          mem_preorder_trans_node row pTag bTag
            (mem_preorderNode_of_mem_descendants hpmem.1)
            (mem_preorderNode_of_mem_descendants hbmem.1)
        have hno := h row (List.mem_cons_self row rest) bTag hbrow hbmem.2
        simp only [scanRows, hp, hb, hno, Bool.false_eq_true, if_false]
        exact ih hrest

/-- If no bold element anywhere in the document matches the label,
`_extract_value` returns the sentinel. -/
theorem extractValue_eq_NA_of_no_bold_match (doc : List Node) (f : String)
    (h : ∀ b ∈ findAllList (fun n => n.hasTag "b") doc, reSearchCI f (nodeText b) = false) :
    extractValue doc f = "N/A" := by
  have hnone : scanRows f (findAllList isRowDiv doc) = none := by
    apply scanRows_eq_none
    intro row hrow b hb htag
    apply h
    rw [findAllList, List.mem_filter]
    refine ⟨?_, htag⟩
    have hrow2 : row ∈ preorderList doc := by
      rw [findAllList] at hrow
      exact (List.mem_filter.mp hrow).1
    exact mem_preorder_trans_list doc row b hrow2 hb
  rw [extractValue, rowScanValue, hnone]
  rfl

/-- A `filterMap` by a conditional is the `filter` followed by the map. -/
theorem filterMap_ite {α β : Type} (p : α → Prop) [DecidablePred p] (g : α → β)
    (l : List α) :
    l.filterMap (fun x => if p x then some (g x) else none) =
      (l.filter (fun x => decide (p x))).map g := by
  induction l with
  | nil => rfl
  | cons a t ih => by_cases hc : p a <;> simp [hc, ih]

/-- Looking up the just-inserted key yields the new value. -/
theorem dlookup_dinsert_self {K : Type} [DecidableEq K] (d : List (K × String))
    (k : K) (v : String) :
    dlookup (dinsert d k v) k = some v := by
  induction d with
  | nil => simp [dinsert, dlookup]
  | cons kv rest ih =>
    by_cases hc : kv.1 = k
    · simp [dinsert, hc, dlookup]
    · simp [dinsert, hc, dlookup, ih]

/-- Inserting one key leaves every other key's lookup unchanged. -/
theorem dlookup_dinsert_ne {K : Type} [DecidableEq K] (d : List (K × String))
    (k k2 : K) (v : String) (hne : k2 ≠ k) :
    dlookup (dinsert d k v) k2 = dlookup d k2 := by
  induction d with
  | nil => simp [dinsert, dlookup, Ne.symm hne]
  | cons kv rest ih =>
    by_cases hc : kv.1 = k
    · simp [dinsert, hc, dlookup, Ne.symm hne]
    · simp [dinsert, hc, dlookup, ih]

/-- The accumulating loop of `validate_addresses` appends the two filters. -/
theorem validateGo_eq (l : List String) : ∀ v i,
    validateGo l v i =
      (v ++ l.filter isValidAddress, i ++ l.filter (fun a => !isValidAddress a)) := by
  induction l with
  | nil => intro v i; simp [validateGo]
  | cons a t ih =>
    intro v i
    cases hc : isValidAddress a with
    | true => rw [validateGo, if_pos hc, ih]; simp [List.filter_cons, hc]
    | false => rw [validateGo, if_neg (by simp [hc]), ih]; simp [List.filter_cons, hc]

/-- The two filters by a predicate and its negation partition the length. -/
theorem length_filter_add_not {α : Type} (p : α → Bool) (l : List α) :
    (l.filter p).length + (l.filter (fun a => !p a)).length = l.length := by
  induction l with
  | nil => rfl
  | cons a t ih => cases hc : p a <;> simp [List.filter_cons, hc] <;> omega

/-- The batch row for any account carries that account number. -/
theorem rowFor_account (fetch : String → Except String BillResult) (x : String) :
    dlookup (rowFor fetch x) "Account Number" = some x := by
  cases hfx : fetch x with
  | ok info => simp [rowFor, hfx, successRow, dlookup]
  | error e => simp [rowFor, hfx, errorRow, dlookup]

/-! Claim theorems. -/

/-- Claim C1, counterexample: on a document where the label appears but has
no trailing value content, `_extract_value` does not return `"N/A"` (it
returns the empty string). -/
theorem claim_C1_counterexample :
    extractValue noTrailingDoc "Current Balance" ≠ "N/A" := by decide

/-- Claim C1 as amended: `_extract_value` is total and returns `"N/A"` for
an empty document and for any document in which no bold element's text
matches the label; when the label's row is found but there is no trailing
value content after the bold label text it returns the empty string, not
`"N/A"`. -/
theorem claim_C1_amended (fieldName : String) (doc : List Node)
    (h : ∀ b ∈ findAllList (fun n => n.hasTag "b") doc,
      reSearchCI fieldName (nodeText b) = false) :
    extractValue [] fieldName = "N/A" ∧
    extractValue doc fieldName = "N/A" ∧
    extractValue noTrailingDoc "Current Balance" = "" :=
  ⟨rfl, extractValue_eq_NA_of_no_bold_match doc fieldName h, rfl⟩

/-- Witness for C1: the amended theorem applied to a concrete document
whose only bold text does not match the requested label. -/
theorem claim_C1_witness :
    extractValue [labeledRow "Previous Balance" " $ 3.00"] "Current Balance" = "N/A" :=
  (claim_C1_amended "Current Balance" [labeledRow "Previous Balance" " $ 3.00"]
    (by
      intro b hb
      rw [show findAllList (fun n => n.hasTag "b") [labeledRow "Previous Balance" " $ 3.00"] =
        [Node.elem "b" [] [Node.text "Previous Balance"]] from rfl] at hb
      rw [List.mem_singleton] at hb
      subst hb
      decide)).2.1

/-- Claim C2, counterexample: in a document where the structural-row scan
yields nothing but a text node matches the label, `_extract_value` still
returns `"N/A"`, not the adjacent sibling element's text `"$5.00"`. -/
theorem claim_C2_counterexample :
    rowScanValue freeTextDoc "Current Balance" = none ∧
    (matchingTextNodes freeTextDoc "Current Balance").length = 1 ∧
    extractValue freeTextDoc "Current Balance" = "N/A" ∧
    extractValue freeTextDoc "Current Balance" ≠ "$5.00" :=
  ⟨rfl, rfl, rfl, by decide⟩

/-- Claim C2 as amended: `_extract_value` has no free-text fallback layer;
whenever the structural-row scan yields nothing it returns `"N/A"`,
regardless of any text nodes matching the label. -/
theorem claim_C2_amended (doc : List Node) (label : String)
    (h : rowScanValue doc label = none) :
    extractValue doc label = "N/A" := by
  rw [extractValue, h]
  rfl

/-- Witness for C2: the amended theorem applied to the concrete free-text
document. -/
theorem claim_C2_witness :
    extractValue freeTextDoc "Current Balance" = "N/A" :=
  claim_C2_amended freeTextDoc "Current Balance" rfl

/-- Claim C3: once the form and its account input are found,
`get_bill_info` fails with an error whose message contains
`"No bill information found"` exactly when every current-record field is
`"N/A"` and the history is empty; in every other post-submission case it
returns the record (also when the history alone is empty). -/
theorem claim_C3 (formPage resultsPage : List Node) (acct : String) (form : Node)
    (hf : (findAllList isAccountForm formPage).head? = some form)
    (hi : (accountInput form).isSome = true) :
    ((∃ e, getBillInfo formPage resultsPage acct = .error e ∧
        containsSub "No bill information found".data e.data = true) ↔
      (allNA (currentBillInfo resultsPage) = true ∧ extractBillHistory resultsPage = [])) ∧
    (¬(allNA (currentBillInfo resultsPage) = true ∧ extractBillHistory resultsPage = []) →
      getBillInfo formPage resultsPage acct =
        .ok ⟨currentBillInfo resultsPage, extractBillHistory resultsPage⟩) := by
  obtain ⟨inp, hinp⟩ := Option.isSome_iff_exists.mp hi
  have hred : getBillInfo formPage resultsPage acct = processResults resultsPage := by
    simp only [getBillInfo, hf, hinp]
  by_cases hc : allNA (currentBillInfo resultsPage) = true ∧ extractBillHistory resultsPage = []
  · have hcb : (allNA (currentBillInfo resultsPage) &&
        (extractBillHistory resultsPage).isEmpty) = true := by
      rw [hc.1, hc.2]
      rfl
    have herr : getBillInfo formPage resultsPage acct =
        .error "Scraping error: No bill information found" := by
      rw [hred, processResults, if_pos hcb]
    refine ⟨⟨fun _ => hc, fun _ => ⟨_, herr, by decide⟩⟩, fun hnc => absurd hc hnc⟩
  · have hcb : ¬(allNA (currentBillInfo resultsPage) &&
        (extractBillHistory resultsPage).isEmpty) = true := by
      rw [Bool.and_eq_true]
      intro h2
      exact hc ⟨h2.1, List.isEmpty_iff.mp h2.2⟩
    have hok : getBillInfo formPage resultsPage acct =
        .ok ⟨currentBillInfo resultsPage, extractBillHistory resultsPage⟩ := by
      rw [hred, processResults, if_neg hcb]
    refine ⟨⟨?_, fun h2 => absurd h2 hc⟩, fun _ => hok⟩
    rintro ⟨e, he, -⟩
    rw [hok] at he
    exact absurd he (by simp)

/-- Witness for C3: a concrete form page and a results page with one
populated field and no history table produce a returned record. -/
theorem claim_C3_witness :
    getBillInfo okFormPage balanceDoc "12345" =
      .ok ⟨currentBillInfo balanceDoc, extractBillHistory balanceDoc⟩ :=
  (claim_C3 okFormPage balanceDoc "12345" exForm rfl rfl).2 (by decide)

/-- Claim C4: the batch loop produces exactly one result row per query, in
input order (each row carries its own query's account number), regardless
of which fetches succeed or fail. -/
theorem claim_C4 (fetch : String → Except String BillResult) (accounts : List String) :
    (processAccounts fetch accounts).length = accounts.length ∧
    (processAccounts fetch accounts).map (fun row => dlookup row "Account Number") =
      accounts.map some := by
  refine ⟨by simp [processAccounts], ?_⟩
  induction accounts with
  | nil => rfl
  | cons a t ih =>
    show dlookup (rowFor fetch a) "Account Number" ::
        (processAccounts fetch t).map (fun row => dlookup row "Account Number") =
      some a :: t.map some
    rw [ih, rowFor_account]

/-- Claim C5: when a query's fetch fails, the appended row's status is the
error's message verbatim and the four monetary/date fields carry the
`"Error"` sentinel, which differs from `"N/A"`. -/
theorem claim_C5 (fetch : String → Except String BillResult) (account e : String)
    (h : fetch account = .error e) :
    dlookup (rowFor fetch account) "Status" = some e ∧
    dlookup (rowFor fetch account) "Current Balance" = some "Error" ∧
    dlookup (rowFor fetch account) "Previous Balance" = some "Error" ∧
    dlookup (rowFor fetch account) "Last Pay Date" = some "Error" ∧
    dlookup (rowFor fetch account) "Last Pay Amount" = some "Error" ∧
    ("Error" : String) ≠ "N/A" := by
  have hrow : rowFor fetch account = errorRow account e := by
    simp only [rowFor, h]
  rw [hrow]
  refine ⟨?_, ?_, ?_, ?_, ?_, by decide⟩ <;> simp [errorRow, dlookup]

/-- Witness for C5: a concrete always-failing fetch. -/
theorem claim_C5_witness :
    dlookup (rowFor fetchFailEx "123") "Status" = some "Network error: boom" ∧
    dlookup (rowFor fetchFailEx "123") "Current Balance" = some "Error" :=
  ⟨(claim_C5 fetchFailEx "123" "Network error: boom" rfl).1,
   (claim_C5 fetchFailEx "123" "Network error: boom" rfl).2.1⟩

/-- Claim C6: the Date/Amount table with one data row yields exactly the
one-entry history (also with an extra short row present), and in general
the history is exactly the well-sized data rows, fully mapped; a row whose
cell count differs from the header count contributes no entry. -/
theorem claim_C6 :
    extractBillHistory histDoc1 = [[("Date", "2024-01-01"), ("Amount", "$10.00")]] ∧
    extractBillHistory histDoc2 = [[("Date", "2024-01-01"), ("Amount", "$10.00")]] ∧
    ∀ (doc : List Node) (table : Node),
      (findAllList isHistTable doc).head? = some table →
      extractBillHistory doc =
        ((dataRowsOf table).filter
          (fun r => decide ((cellTextsOf r).length = (headersOf table).length))).map
          (mkHistEntry (headersOf table)) := by
  refine ⟨rfl, rfl, ?_⟩
  intro doc table h
  simp only [extractBillHistory, h]
  exact filterMap_ite _ _ _

/-- Witness for C6: the general characterization applied to the concrete
table with a mismatched row. -/
theorem claim_C6_witness :
    extractBillHistory histDoc2 =
      ((dataRowsOf histTable2).filter
        (fun r => decide ((cellTextsOf r).length = (headersOf histTable2).length))).map
        (mkHistEntry (headersOf histTable2)) :=
  claim_C6.2.2 histDoc2 histTable2 rfl

/-- Claim C7, counterexample: on a form whose primary input's discovered
field name is `"foo"`, the POST body built by the code contains no binding
for `"foo"`; it binds the hard-coded key `"AccountNumber"` instead, unlike
the body the spec describes. And when the primary input is missing, no
body with the fallback default name is ever submitted: the fetch fails. -/
theorem claim_C7_counterexample :
    accountInput exForm =
      some (Node.elem "input" [("id", "accountNumber"), ("name", "foo")] []) ∧
    dlookup (searchData exForm "12345") (some "foo") = none ∧
    dlookup (searchDataSpec exForm "12345") (some "foo") = some "12345" ∧
    dlookup (searchData exForm "12345") (some "AccountNumber") = some "12345" ∧
    accountInput noInputForm = none ∧
    getBillInfo noInputFormPage balanceDoc "12345" =
      .error "Scraping error: Could not find account number input field" :=
  ⟨rfl, rfl, rfl, rfl, rfl, rfl⟩

/-- The four keys the POST body always sets, shadowing same-named hidden
fields. -/
def fixedKeys : List (Option String) :=
  [some "AccountNumber", some "searchType", some "action", some "submit"]

/-- Claim C7 as amended: the POST body is the union of the form's hidden
input name/value pairs with the fixed binding `"AccountNumber"` to the
query value and the fixed search-type and action/submit markers; the
primary input's discovered field name is computed but never used in the
body, and when the primary input is missing the fetch fails with the
input-not-found error instead of falling back to the default field name. -/
theorem claim_C7_amended (form : Node) (acct : String) :
    dlookup (searchData form acct) (some "AccountNumber") = some acct ∧
    dlookup (searchData form acct) (some "searchType") = some "account" ∧
    dlookup (searchData form acct) (some "action") = some "/water/_getInfoByAccountNumber" ∧
    dlookup (searchData form acct) (some "submit") = some "buttonSubmitAccountNumber" ∧
    (∀ k : Option String, k ∉ fixedKeys →
      dlookup (searchData form acct) k = dlookup (hiddenDict form) k) ∧
    ∀ formPage resultsPage : List Node,
      (findAllList isAccountForm formPage).head? = some form →
      accountInput form = none →
      getBillInfo formPage resultsPage acct =
        .error "Scraping error: Could not find account number input field" := by
  refine ⟨?_, ?_, ?_, ?_, ?_, ?_⟩
  · simp only [searchData]
    rw [dlookup_dinsert_ne _ _ _ _ (by decide),
      dlookup_dinsert_ne _ _ _ _ (by decide),
      dlookup_dinsert_ne _ _ _ _ (by decide),
      dlookup_dinsert_self]
  · simp only [searchData]
    rw [dlookup_dinsert_ne _ _ _ _ (by decide),
      dlookup_dinsert_ne _ _ _ _ (by decide),
      dlookup_dinsert_self]
  · simp only [searchData]
    rw [dlookup_dinsert_ne _ _ _ _ (by decide),
      dlookup_dinsert_self]
  · simp only [searchData]
    rw [dlookup_dinsert_self]
  · intro k hk
    simp only [fixedKeys, List.mem_cons, List.not_mem_nil, or_false, not_or] at hk
    simp only [searchData]
    rw [dlookup_dinsert_ne _ _ _ _ hk.2.2.2,
      dlookup_dinsert_ne _ _ _ _ hk.2.2.1,
      dlookup_dinsert_ne _ _ _ _ hk.2.1,
      dlookup_dinsert_ne _ _ _ _ hk.1]
  · intro formPage resultsPage hf hnone
    simp only [getBillInfo, hf, hnone]

/-- Witness for C7: the amended characterization applied to the concrete
form, for the fixed key and for the hidden CSRF key, and the abort clause
applied to the concrete input-less form. -/
theorem claim_C7_witness :
    dlookup (searchData exForm "12345") (some "AccountNumber") = some "12345" ∧
    dlookup (searchData exForm "12345") (some "csrf") =
      dlookup (hiddenDict exForm) (some "csrf") ∧
    getBillInfo noInputFormPage balanceDoc "12345" =
      .error "Scraping error: Could not find account number input field" :=
  ⟨(claim_C7_amended exForm "12345").1,
   (claim_C7_amended exForm "12345").2.2.2.2.1 (some "csrf") (by decide),
   (claim_C7_amended noInputForm "12345").2.2.2.2.2 noInputFormPage balanceDoc rfl rfl⟩

/-- Claim C8: `format_currency` maps `"14"` to `"$14.00"`, `"1,234.5"` to
`"$1,234.50"`, passes `"N/A"` through, and returns any input unchanged
whose cleaned form does not parse as a Python float. -/
theorem claim_C8 :
    format_currency "14" = "$14.00" ∧
    format_currency "1,234.5" = "$1,234.50" ∧
    format_currency "N/A" = "N/A" ∧
    ∀ value : String, value ≠ "N/A" →
      parsePyFloat ⟨cleanCurrency value⟩ = none →
      format_currency value = value := by
  refine ⟨rfl, rfl, rfl, ?_⟩
  intro v hne hp
  have hb : (v == "N/A") = false := beq_eq_false_iff_ne.mpr hne
  simp only [format_currency, hb, Bool.false_eq_true, if_false, hp]

/-- Witness for C8: the unchanged-return clause applied to a concrete
non-numeric input. -/
theorem claim_C8_witness :
    format_currency "garbage" = "garbage" :=
  claim_C8.2.2.2 "garbage" (by decide) rfl

/-- Claim C9: `validate_addresses` partitions its input into the two
filters, the lengths of the two returned lists sum to the input length,
and each input address lands in exactly one of the two lists. -/
theorem claim_C9 (addresses : List String) :
    validate_addresses addresses =
      (addresses.filter isValidAddress, addresses.filter (fun a => !isValidAddress a)) ∧
    (validate_addresses addresses).1.length + (validate_addresses addresses).2.length =
      addresses.length ∧
    ∀ a ∈ addresses,
      (a ∈ (validate_addresses addresses).1 ∧ a ∉ (validate_addresses addresses).2) ∨
      (a ∉ (validate_addresses addresses).1 ∧ a ∈ (validate_addresses addresses).2) := by
  have he : validate_addresses addresses =
      (addresses.filter isValidAddress, addresses.filter (fun a => !isValidAddress a)) := by
    rw [validate_addresses, validateGo_eq]
    simp
  refine ⟨he, ?_, ?_⟩
  · rw [he]
    exact length_filter_add_not isValidAddress addresses
  · intro a ha
    rw [he]
    by_cases hv : isValidAddress a = true
    · left
      refine ⟨List.mem_filter.mpr ⟨ha, hv⟩, ?_⟩
      intro hmem
      have h2 := (List.mem_filter.mp hmem).2
      rw [hv] at h2
      exact absurd h2 (by decide)
    · have hvf : isValidAddress a = false := Bool.eq_false_iff.mpr hv
      right
      refine ⟨?_, List.mem_filter.mpr ⟨ha, by rw [hvf]; rfl⟩⟩
      intro hmem
      exact hv (List.mem_filter.mp hmem).2

/-- Witness for C9: the exactly-one clause applied to a concrete list and
member. -/
theorem claim_C9_witness :
    ("x" ∈ (validate_addresses ["123 Main St", "x"]).1 ∧
      "x" ∉ (validate_addresses ["123 Main St", "x"]).2) ∨
    ("x" ∉ (validate_addresses ["123 Main St", "x"]).1 ∧
      "x" ∈ (validate_addresses ["123 Main St", "x"]).2) :=
  (claim_C9 ["123 Main St", "x"]).2.2 "x" (by decide)

/-- Claim C10: an error row contains no `"Address"` key at all, while
every success row contains one. -/
theorem claim_C10 (fetch : String → Except String BillResult) (account : String) :
    (∀ e, fetch account = .error e →
      dlookup (rowFor fetch account) "Address" = none) ∧
    (∀ info, fetch account = .ok info →
      (dlookup (rowFor fetch account) "Address").isSome = true) := by
  constructor
  · intro e he
    simp [rowFor, he, errorRow, dlookup]
  · intro info hinfo
    simp [rowFor, hinfo, successRow, dlookup]

/-- Witness for C10: concrete failing and succeeding fetches. -/
theorem claim_C10_witness :
    dlookup (rowFor fetchFailEx "1") "Address" = none ∧
    (dlookup (rowFor fetchOkEx "2") "Address").isSome = true :=
  ⟨(claim_C10 fetchFailEx "1").1 "Network error: boom" rfl,
   (claim_C10 fetchOkEx "2").2 ⟨[("Service Address", "1 Main St")], []⟩ rfl⟩

end WaterScrape
